import Mathlib

/-!
Verification of the host-authoritative simulation loop of the "chirma"
multiplayer browser game (source: `src/`).

The embedding translates the TypeScript sources into Lean:
* `types.ts`                 → the data model (`Player`, `Present`, `ChaosEvent`,
                               `GameState`, `NetworkMessage`);
* `constants.ts`             → the numeric constants;
* `services/geminiService.ts`→ `generateChaosEvent`, parameterised by the
                               outcome of the external content provider;
* `components/GameCanvas.tsx`→ the host tick (`hostTick`) split into the
                               steps the source performs in order, plus
                               `getWinner` and the client message listener;
* `App.tsx`                  → the host message handler (`hostOnMessage`),
                               `handleGameOver` and the resolution step of
                               `handleTriggerGemini`.

JavaScript numbers are modelled as rationals (`ℚ`); scores and present
values as naturals; `Record<string, Player>` as a list in insertion order
(the iteration order of `Object.values` for string keys); the stable
`Array.prototype.sort` as `List.insertionSort` (stable sorts with the same
comparator agree on the output).  Randomness and wall-clock readings are
passed in explicitly as tick inputs.
-/

namespace Chirma

/-- Arena width, from `constants.ts` (`CANVAS_WIDTH = 800`). -/
def CANVAS_WIDTH : ℚ := 800

/-- Arena height, from `constants.ts` (`CANVAS_HEIGHT = 600`). -/
def CANVAS_HEIGHT : ℚ := 600

/-- Player bounding-box size, from `constants.ts` (`PLAYER_SIZE = 40`). -/
def PLAYER_SIZE : ℚ := 40

/-- Present bounding-box size, from `constants.ts` (`PRESENT_SIZE = 30`). -/
def PRESENT_SIZE : ℚ := 30

/-- Match duration in seconds, from `constants.ts` (`GAME_DURATION = 120`). -/
def GAME_DURATION : ℚ := 120

/-- Per-tick base speed, from `constants.ts` (`MOVEMENT_SPEED = 5`). -/
def MOVEMENT_SPEED : ℚ := 5

/-- The `PlayerSkin` enum of `types.ts`. -/
inductive PlayerSkin
  | SANTA
  | ELF
  | REINDEER
  | SNOWMAN
  | COOKIE
deriving DecidableEq, Repr

/-- The event `type` union of `types.ts`. -/
inductive EventType
  | SPEED_BOOST
  | SLOWNESS
  | FREEZE
  | REVERSE_CONTROLS
  | DOUBLE_POINTS
  | NORMAL
deriving DecidableEq, Repr

/-- The `ChaosEvent` interface of `types.ts`. -/
structure ChaosEvent where
  name : String
  description : String
  type : EventType
  duration : ℚ
  active : Bool
deriving DecidableEq, Repr

/-- The `Player` interface of `types.ts`.  The optional `frozen` and
`inverted` flags are booleans; an absent (undefined) flag is falsy in the
source, so absence is encoded as `false`. -/
structure Player where
  id : String
  x : ℚ
  y : ℚ
  score : ℕ
  skin : PlayerSkin
  name : String
  isHost : Bool
  vx : ℚ
  vy : ℚ
  frozen : Bool := false
  inverted : Bool := false
deriving DecidableEq, Repr

/-- The `Present` interface of `types.ts`. -/
structure Present where
  id : String
  x : ℚ
  y : ℚ
  value : ℕ
deriving DecidableEq, Repr

/-- The `GameState` interface of `types.ts`.  `players` is a
`Record<string, Player>`, modelled as a list in key-insertion order. -/
structure GameState where
  players : List Player
  presents : List Present
  activeEvent : Option ChaosEvent
  timeLeft : ℚ
  winnerId : Option String
deriving DecidableEq, Repr

/-- The `NetworkMessage` tagged union of `types.ts`. -/
inductive NetworkMessage
  | JOIN_REQUEST (name : String) (skin : PlayerSkin)
  | JOIN_ACCEPT (gameState : GameState) (playerId : String)
  | INPUT (dx dy : ℤ)
  | GAME_UPDATE (gameState : GameState)
  | START_GAME
  | GAME_OVER (winnerId : String)
deriving DecidableEq, Repr

/-! ## Event Content Provider (`services/geminiService.ts`) -/

/-- Outcome of the external Gemini call, as observed by
`generateChaosEvent`: the credential may be missing (`getAiClient`
returns null), the request or JSON parsing may throw, the response text
may be empty (which the source turns into a thrown error), or a parsed
payload arrives. -/
inductive ProviderOutcome
  | noApiKey
  | serviceError
  | emptyResponse
  | ok (name description : String) (type : EventType) (duration : ℚ)
deriving DecidableEq, Repr

/-- Whether a provider outcome is one of the failure cases of
`generateChaosEvent` (missing credential, thrown error, empty response). -/
def ProviderOutcome.isFailure : ProviderOutcome → Bool
  | .noApiKey => true
  | .serviceError => true
  | .emptyResponse => true
  | .ok _ _ _ _ => false

/-- The fallback returned by `generateChaosEvent` when no API key is
configured (`geminiService.ts`, lines 17–25). -/
def fallbackNoKey : ChaosEvent :=
  { name := "Blizzard!"
    description := "It\x27s getting cold! (Fallback Event)"
    type := EventType.SLOWNESS
    duration := 10
    active := true }

/-- The failover returned by the `catch` block of `generateChaosEvent`
(`geminiService.ts`, lines 69–79). -/
def fallbackError : ChaosEvent :=
  { name := "Grinch\x27s Trick"
    description := "Something went wrong, but chaos continues!"
    type := EventType.REVERSE_CONTROLS
    duration := 10
    active := true }

/-- `generateChaosEvent` of `geminiService.ts` as a function of the
provider outcome.  An empty response throws inside the `try` and is
caught by the same `catch`, hence the failover event. -/
def generateChaosEvent : ProviderOutcome → ChaosEvent
  | .noApiKey => fallbackNoKey
  | .serviceError => fallbackError
  | .emptyResponse => fallbackError
  | .ok n d t dur =>
    { name := n, description := d, type := t, duration := dur, active := true }

/-- The event types `generateChaosEvent` asks the provider for (the
`enum` in its response schema): everything except `NORMAL`. -/
def allowedEventTypes : List EventType :=
  [EventType.SPEED_BOOST, EventType.SLOWNESS, EventType.FREEZE,
   EventType.REVERSE_CONTROLS, EventType.DOUBLE_POINTS]

/-! ## Simulation engine (`components/GameCanvas.tsx`, host branch) -/

/-- The `REVERSE_CONTROLS` sign flip of the input-gathering step
(`GameCanvas.tsx`, lines 93–96). -/
def reversedInput (ev : Option ChaosEvent) (dx0 dy0 : ℤ) : ℤ × ℤ :=
  if ev.map ChaosEvent.type = some EventType.REVERSE_CONTROLS then (-dx0, -dy0)
  else (dx0, dy0)

/-- The input-gathering step of the game loop (`GameCanvas.tsx`, lines
82–97): the vector stays `(0, 0)` unless the local player exists and is
not frozen; event modifiers are applied to the raw key vector. -/
def inputAfterEvent (myPlayer : Option Player) (ev : Option ChaosEvent)
    (dx0 dy0 : ℤ) : ℤ × ℤ :=
  match myPlayer with
  | none => (0, 0)
  | some p => if p.frozen then (0, 0) else reversedInput ev dx0 dy0

/-- The speed computation of the host movement step (`GameCanvas.tsx`,
lines 103–105): `MOVEMENT_SPEED`, doubled under `SPEED_BOOST`, halved
under `SLOWNESS`. -/
def eventSpeed (ev : Option ChaosEvent) : ℚ :=
  let speed := MOVEMENT_SPEED
  let speed := if ev.map ChaosEvent.type = some EventType.SPEED_BOOST then speed * 2 else speed
  if ev.map ChaosEvent.type = some EventType.SLOWNESS then speed * (1 / 2) else speed

/-- `Math.max(0, Math.min(hi, v))`, the per-axis clamp of
`GameCanvas.tsx`, lines 108–109. -/
def clampAxis (hi v : ℚ) : ℚ := max 0 (min hi v)

/-- The per-tick displacement a processed input vector produces:
event reversal followed by the event-scaled speed.  (Positions then add
this displacement, before clamping.) -/
def tickDisplacement (ev : Option ChaosEvent) (dx0 dy0 : ℤ) : ℚ × ℚ :=
  let v := reversedInput ev dx0 dy0
  ((v.1 : ℚ) * eventSpeed ev, (v.2 : ℚ) * eventSpeed ev)

/-- The host movement step (`GameCanvas.tsx`, lines 100–109): when the
processed input vector is non-zero, the local player's position advances
by `input * speed` and is clamped per axis to
`[0, CANVAS_WIDTH - PLAYER_SIZE] × [0, CANVAS_HEIGHT - PLAYER_SIZE]`.
Other players are untouched. -/
def applyLocalMove (s : GameState) (myPlayerId : String) (dx dy : ℤ) : GameState :=
  if dx ≠ 0 ∨ dy ≠ 0 then
    { s with players := s.players.map (fun p =>
        if p.id = myPlayerId then
          { p with
            x := clampAxis (CANVAS_WIDTH - PLAYER_SIZE) (p.x + (dx : ℚ) * eventSpeed s.activeEvent)
            y := clampAxis (CANVAS_HEIGHT - PLAYER_SIZE) (p.y + (dy : ℚ) * eventSpeed s.activeEvent) }
        else p) }
  else s

/-- Step 1 of the host tick: gather the local input (with the frozen
check and event reversal) and apply the movement (`GameCanvas.tsx`,
lines 79–109). -/
def integrateInput (s : GameState) (myPlayerId : String) (dx0 dy0 : ℤ) : GameState :=
  let myPlayer := s.players.find? (fun p => p.id = myPlayerId)
  let v := inputAfterEvent myPlayer s.activeEvent dx0 dy0
  applyLocalMove s myPlayerId v.1 v.2

/-- The order imposed by the comparator `(a, b) => b.score - a.score`
of `getWinner`: `a` sorts no later than `b` when `b.score ≤ a.score`. -/
def byScoreDesc (a b : Player) : Prop := b.score ≤ a.score

instance : DecidableRel byScoreDesc := fun a b =>
  inferInstanceAs (Decidable (b.score ≤ a.score))

instance : IsTotal Player byScoreDesc :=
  ⟨fun a b => (le_total b.score a.score).elim Or.inl Or.inr⟩

instance : IsTrans Player byScoreDesc :=
  ⟨fun _ _ _ hab hbc => le_trans hbc hab⟩

/-- Winner selection (`GameCanvas.tsx`, lines 260–262):
`Object.values(players).sort((a, b) => b.score - a.score)[0]?.id || ''`.
`Array.prototype.sort` is a stable sort, so the comparator determines
the output uniquely; `List.insertionSort` with the same descending-score
relation is that stable sort. -/
def getWinner (players : List Player) : String :=
  match players.insertionSort byScoreDesc with
  | [] => ""
  | p :: _ => p.id

/-- Decrement of the match clock (`GameCanvas.tsx`, line 121). -/
def tickTimer (s : GameState) (dt : ℚ) : GameState :=
  { s with timeLeft := s.timeLeft - dt }

/-- The event-timer step (`GameCanvas.tsx`, lines 128–133): an active
event's remaining duration decreases by `dt` and the event is cleared
once it reaches zero or below. -/
def stepEventTimer (s : GameState) (dt : ℚ) : GameState :=
  match s.activeEvent with
  | some ev =>
    if ev.active then
      let ev := { ev with duration := ev.duration - dt }
      if ev.duration ≤ 0 then { s with activeEvent := none }
      else { s with activeEvent := some ev }
    else s
  | none => s

/-- The periodic event-trigger condition (`GameCanvas.tsx`, lines
137–139): no active event, a positive whole number of elapsed seconds
divisible by 30, and more than 5000 ms since the last trigger. -/
def shouldTrigger (s : GameState) (time lastEventTrigger : ℚ) : Bool :=
  s.activeEvent.isNone
    && decide (0 < ⌊(120 : ℚ) - s.timeLeft⌋)
    && decide (⌊(120 : ℚ) - s.timeLeft⌋ % 30 = 0)
    && decide (5000 < time - lastEventTrigger)

/-- The axis-aligned bounding-box overlap test of the collision step
(`GameCanvas.tsx`, lines 147–151). -/
def hits (p : Player) (q : Present) : Bool :=
  decide (p.x < q.x + PRESENT_SIZE) && decide (q.x < p.x + PLAYER_SIZE)
    && decide (p.y < q.y + PRESENT_SIZE) && decide (q.y < p.y + PLAYER_SIZE)

/-- The points a collected present awards (`GameCanvas.tsx`, lines
154–156): its value, doubled when `DOUBLE_POINTS` is active. -/
def presentPoints (ev : Option ChaosEvent) (q : Present) : ℕ :=
  let points := q.value
  if ev.map ChaosEvent.type = some EventType.DOUBLE_POINTS then points * 2 else points

/-- One player's pass of the collision filter (`GameCanvas.tsx`, lines
146–160): every overlapped present is removed from the collection and
its (possibly doubled) value added to the player's score. -/
def collectOne (ev : Option ChaosEvent) (p : Player) (presents : List Present) :
    Player × List Present :=
  ({ p with score := p.score + ((presents.filter (fun q => hits p q)).map (presentPoints ev)).sum },
   presents.filter (fun q => !hits p q))

/-- The collision-resolution step (`GameCanvas.tsx`, lines 144–161):
players are processed in iteration order, each filtering the present
collection left by its predecessors. -/
def resolveCollisions (ev : Option ChaosEvent) :
    List Player → List Present → List Player × List Present
  | [], presents => ([], presents)
  | p :: rest, presents =>
    let pr := collectOne ev p presents
    let restr := resolveCollisions ev rest pr.2
    (pr.1 :: restr.1, restr.2)

/-- The collision step applied to a state. -/
def stepCollisions (s : GameState) : GameState :=
  let r := resolveCollisions s.activeEvent s.players s.presents
  { s with players := r.1, presents := r.2 }

/-- A freshly spawned present (`GameCanvas.tsx`, lines 166–171), given
the random draws of that tick. -/
def spawnedPresent (id : String) (rx ry : ℚ) (highValue : Bool) : Present :=
  { id := id
    x := rx * (CANVAS_WIDTH - PRESENT_SIZE)
    y := ry * (CANVAS_HEIGHT - PRESENT_SIZE)
    value := if highValue then 5 else 1 }

/-- The spawner step (`GameCanvas.tsx`, lines 164–173): when fewer than
10 presents are live and the 5% roll succeeds, push a new present. -/
def stepSpawn (s : GameState) (roll : Bool) (np : Present) : GameState :=
  if s.presents.length < 10 ∧ roll then { s with presents := s.presents ++ [np] }
  else s

/-- The broadcast throttle condition (`GameCanvas.tsx`, line 176):
`time - lastNetworkUpdate > 40`. -/
def shouldBroadcast (time lastNetworkUpdate : ℚ) : Bool :=
  decide (40 < time - lastNetworkUpdate)

/-- The per-tick inputs the environment feeds the host game loop: the
elapsed time `dt`, the wall-clock `time` of the frame, the raw key
vector of the local player, and the random draws consumed by the
spawner. -/
structure TickInput where
  dt : ℚ
  time : ℚ
  dx0 : ℤ
  dy0 : ℤ
  spawnRoll : Bool
  spawnId : String
  spawnRx : ℚ
  spawnRy : ℚ
  spawnHigh : Bool
deriving DecidableEq, Repr

/-- What one execution of the host branch of `gameLoop` produces: the
new state, the messages broadcast to the clients, the `onGameOver`
callback invocation (if any), whether the loop returned early
(stopping the animation), the updated throttle timestamps and whether
the Gemini trigger fired. -/
structure TickResult where
  state : GameState
  broadcasts : List NetworkMessage
  gameOverWinner : Option String
  stopped : Bool
  lastNetworkUpdate : ℚ
  lastEventTrigger : ℚ
  geminiTriggered : Bool
deriving DecidableEq, Repr

/-- The host branch of `gameLoop` (`GameCanvas.tsx`, lines 75–191), as
the per-tick transition: local input integration, clock decrement with
finalization (which calls `onGameOver(getWinner(players))` and returns,
skipping every later step), event timer, periodic event trigger,
collision resolution, present spawning and the throttled full-state
broadcast. -/
def hostTick (s : GameState) (myPlayerId : String)
    (lastNetworkUpdate lastEventTrigger : ℚ) (inp : TickInput) : TickResult :=
  let s1 := integrateInput s myPlayerId inp.dx0 inp.dy0
  let s2 := tickTimer s1 inp.dt
  if s2.timeLeft ≤ 0 then
    { state := s2
      broadcasts := []
      gameOverWinner := some (getWinner s2.players)
      stopped := true
      lastNetworkUpdate := lastNetworkUpdate
      lastEventTrigger := lastEventTrigger
      geminiTriggered := false }
  else
    let s3 := stepEventTimer s2 inp.dt
    let trig := shouldTrigger s3 inp.time lastEventTrigger
    let lastEventTrigger := if trig then inp.time else lastEventTrigger
    let s4 := stepCollisions s3
    let s5 := stepSpawn s4 inp.spawnRoll
      (spawnedPresent inp.spawnId inp.spawnRx inp.spawnRy inp.spawnHigh)
    if shouldBroadcast inp.time lastNetworkUpdate then
      { state := s5
        broadcasts := [NetworkMessage.GAME_UPDATE s5]
        gameOverWinner := none
        stopped := false
        lastNetworkUpdate := inp.time
        lastEventTrigger := lastEventTrigger
        geminiTriggered := trig }
    else
      { state := s5
        broadcasts := []
        gameOverWinner := none
        stopped := false
        lastNetworkUpdate := lastNetworkUpdate
        lastEventTrigger := lastEventTrigger
        geminiTriggered := trig }

/-- A run of the host loop over a list of frames, threading state and
throttle timestamps and stopping when a tick finalizes the match;
records each frame's wall-clock time with the messages it broadcast. -/
def hostRun (myPlayerId : String) :
    GameState → ℚ → ℚ → List TickInput → List (ℚ × List NetworkMessage)
  | _, _, _, [] => []
  | s, ln, le, inp :: rest =>
    let r := hostTick s myPlayerId ln le inp
    if r.stopped then [(inp.time, r.broadcasts)]
    else (inp.time, r.broadcasts) :: hostRun myPlayerId r.state r.lastNetworkUpdate r.lastEventTrigger rest

/-- The wall-clock times at which a host run actually broadcast. -/
def emissionTimes (myPlayerId : String) :
    GameState → ℚ → ℚ → List TickInput → List ℚ
  | _, _, _, [] => []
  | s, ln, le, inp :: rest =>
    let r := hostTick s myPlayerId ln le inp
    if r.stopped then (if r.broadcasts.isEmpty then [] else [inp.time])
    else
      if r.broadcasts.isEmpty then
        emissionTimes myPlayerId r.state r.lastNetworkUpdate r.lastEventTrigger rest
      else
        inp.time :: emissionTimes myPlayerId r.state r.lastNetworkUpdate r.lastEventTrigger rest

/-! ## Session layer (`App.tsx`) -/

/-- The host's own initial player (`App.tsx`, lines 36–46).  The object
literal sets neither `frozen` nor `inverted`, so both are falsy. -/
def initialPlayer (id name : String) (skin : PlayerSkin) : Player :=
  { id := id, name := name, skin := skin
    x := CANVAS_WIDTH / 2, y := CANVAS_HEIGHT / 2
    score := 0, isHost := true, vx := 0, vy := 0 }

/-- The freshly initialised host state (`App.tsx`, lines 48–54). -/
def initialGameState (id name : String) (skin : PlayerSkin) : GameState :=
  { players := [initialPlayer id name skin]
    presents := []
    activeEvent := none
    timeLeft := GAME_DURATION
    winnerId := none }

/-- The player added on a `JOIN_REQUEST` (`App.tsx`, lines 65–74): the
spawn position is `Math.random() * CANVAS_WIDTH` by
`Math.random() * CANVAS_HEIGHT`, with `r1, r2` the two random draws. -/
def joinedPlayer (sourcePeerId name : String) (skin : PlayerSkin) (r1 r2 : ℚ) : Player :=
  { id := sourcePeerId, name := name, skin := skin
    x := r1 * CANVAS_WIDTH, y := r2 * CANVAS_HEIGHT
    score := 0, isHost := false, vx := 0, vy := 0 }

/-- The host's network listener installed by `initHost` (`App.tsx`,
lines 60–101).  A `JOIN_REQUEST` adds the player and replies with
`JOIN_ACCEPT`; the `INPUT` branch contains only comments and performs
no state change and sends nothing; every other message kind is not
handled.  The second component lists the `(recipient, message)` replies
sent. -/
def hostOnMessage (s : GameState) (msg : NetworkMessage) (sourcePeerId : String)
    (r1 r2 : ℚ) : GameState × List (String × NetworkMessage) :=
  match msg with
  | NetworkMessage.JOIN_REQUEST name skin =>
    let s1 := { s with players := s.players ++ [joinedPlayer sourcePeerId name skin r1 r2] }
    (s1, [(sourcePeerId, NetworkMessage.JOIN_ACCEPT s1 sourcePeerId)])
  | NetworkMessage.INPUT _ _ => (s, [])
  | _ => (s, [])

/-- `handleGameOver` (`App.tsx`, lines 179–182): records the winner on
the session's game state (and moves the UI to the game-over phase).  It
sends no network message. -/
def handleGameOver (s : GameState) (winnerId : String) : GameState :=
  { s with winnerId := some winnerId }

/-- The resolution step of `handleTriggerGemini` (`App.tsx`, lines
158–177): once the asynchronous fetch resolves, the event is installed
into whatever game state currently exists — the only guard is the null
check on the previous state. -/
def handleTriggerGeminiResolve (prev : Option GameState) (event : ChaosEvent) :
    Option GameState :=
  match prev with
  | none => none
  | some s => some { s with activeEvent := some event }

/-- The message broadcast by `startGame` (`App.tsx`, lines 145–149). -/
def startGameBroadcast : NetworkMessage := NetworkMessage.START_GAME

/-! ## Derived notions used by the statements -/

/-- The sum of all players' scores. -/
def sumScores (l : List Player) : ℕ := (l.map Player.score).sum

/-- Whether a message is the end-of-match signal. -/
def NetworkMessage.isGameOverMsg : NetworkMessage → Bool
  | NetworkMessage.GAME_OVER _ => true
  | _ => false

/-- The game states reachable on the host: the freshly initialised
session, followed by any interleaving of incoming network messages,
simulation ticks, the game-over handler and the resolution of a chaos
event fetch. -/
inductive Reachable : GameState → Prop
  | init (id name : String) (skin : PlayerSkin) :
      Reachable (initialGameState id name skin)
  | message (s : GameState) (msg : NetworkMessage) (src : String) (r1 r2 : ℚ) :
      Reachable s → Reachable (hostOnMessage s msg src r1 r2).1
  | tick (s : GameState) (pid : String) (ln le : ℚ) (inp : TickInput) :
      Reachable s → Reachable (hostTick s pid ln le inp).state
  | gameOver (s : GameState) (w : String) :
      Reachable s → Reachable (handleGameOver s w)
  | chaos (s : GameState) (e : ChaosEvent) :
      Reachable s → Reachable ((handleTriggerGeminiResolve (some s) e).getD s)

/-! ## Concrete scenarios used by witnesses and counterexamples -/

/-- A host player with score 3, sitting at the arena centre. -/
def demoHost : Player :=
  { id := "h", x := 400, y := 300, score := 3, skin := PlayerSkin.SANTA
    name := "Hosta", isHost := true, vx := 0, vy := 0 }

/-- A joined client player with score 1 at position (100, 100). -/
def demoClient : Player :=
  { id := "c", x := 100, y := 100, score := 1, skin := PlayerSkin.ELF
    name := "Quest", isHost := false, vx := 0, vy := 0 }

/-- A state one short tick away from match expiry (0.016 s left). -/
def demoFinalState : GameState :=
  { players := [demoHost, demoClient], presents := [], activeEvent := none
    timeLeft := 2 / 125, winnerId := none }

/-- A mid-match state with 100 s of play left. -/
def demoLiveState : GameState :=
  { players := [demoHost, demoClient], presents := [], activeEvent := none
    timeLeft := 100, winnerId := none }

/-- A tick with `dt` = 0.02 s, no keys held and no spawn roll. -/
def demoTickInput : TickInput :=
  { dt := 1 / 50, time := 100, dx0 := 0, dy0 := 0, spawnRoll := false
    spawnId := "n", spawnRx := 0, spawnRy := 0, spawnHigh := false }

/-- A terminal state: the match ended and the winner was recorded. -/
def demoTerminalState : GameState :=
  { players := [demoHost], presents := [], activeEvent := none
    timeLeft := 0, winnerId := some "h" }

/-- Two players whose bounding boxes both overlap `demoPresent`. -/
def overlapA : Player :=
  { id := "p1", x := 0, y := 0, score := 0, skin := PlayerSkin.SNOWMAN
    name := "Anna", isHost := true, vx := 0, vy := 0 }

/-- The second overlapping player (later in iteration order). -/
def overlapB : Player :=
  { id := "p2", x := 10, y := 10, score := 0, skin := PlayerSkin.COOKIE
    name := "Bert", isHost := false, vx := 0, vy := 0 }

/-- A present at (10, 10) worth 5 points, overlapped by both players. -/
def demoPresent : Present := { id := "g", x := 10, y := 10, value := 5 }

/-! ## Step-preservation lemmas -/

theorem applyLocalMove_timeLeft (s : GameState) (pid : String) (dx dy : ℤ) :
    (applyLocalMove s pid dx dy).timeLeft = s.timeLeft := by
  unfold applyLocalMove; split <;> rfl

theorem applyLocalMove_presents (s : GameState) (pid : String) (dx dy : ℤ) :
    (applyLocalMove s pid dx dy).presents = s.presents := by
  unfold applyLocalMove; split <;> rfl

theorem applyLocalMove_activeEvent (s : GameState) (pid : String) (dx dy : ℤ) :
    (applyLocalMove s pid dx dy).activeEvent = s.activeEvent := by
  unfold applyLocalMove; split <;> rfl

theorem integrateInput_timeLeft (s : GameState) (pid : String) (a b : ℤ) :
    (integrateInput s pid a b).timeLeft = s.timeLeft := by
  unfold integrateInput; exact applyLocalMove_timeLeft ..

theorem integrateInput_presents (s : GameState) (pid : String) (a b : ℤ) :
    (integrateInput s pid a b).presents = s.presents := by
  unfold integrateInput; exact applyLocalMove_presents ..

theorem integrateInput_activeEvent (s : GameState) (pid : String) (a b : ℤ) :
    (integrateInput s pid a b).activeEvent = s.activeEvent := by
  unfold integrateInput; exact applyLocalMove_activeEvent ..

theorem stepEventTimer_players (s : GameState) (dt : ℚ) :
    (stepEventTimer s dt).players = s.players := by
  unfold stepEventTimer
  split <;> first | rfl | (split <;> first | rfl | (dsimp only; split <;> rfl))

theorem stepEventTimer_presents (s : GameState) (dt : ℚ) :
    (stepEventTimer s dt).presents = s.presents := by
  unfold stepEventTimer
  split <;> first | rfl | (split <;> first | rfl | (dsimp only; split <;> rfl))

theorem stepSpawn_players (s : GameState) (roll : Bool) (np : Present) :
    (stepSpawn s roll np).players = s.players := by
  unfold stepSpawn; split <;> rfl

/-! ## `hostTick` case characterizations -/

theorem hostTick_of_final (s : GameState) (pid : String) (ln le : ℚ)
    (inp : TickInput) (h : s.timeLeft - inp.dt ≤ 0) :
    hostTick s pid ln le inp =
      { state := tickTimer (integrateInput s pid inp.dx0 inp.dy0) inp.dt
        broadcasts := []
        gameOverWinner := some (getWinner (integrateInput s pid inp.dx0 inp.dy0).players)
        stopped := true
        lastNetworkUpdate := ln
        lastEventTrigger := le
        geminiTriggered := false } := by
  have hc : (tickTimer (integrateInput s pid inp.dx0 inp.dy0) inp.dt).timeLeft ≤ 0 := by
    simpa [tickTimer, integrateInput_timeLeft] using h
  simp only [hostTick, if_pos hc]
  rfl

theorem hostTick_of_live (s : GameState) (pid : String) (ln le : ℚ)
    (inp : TickInput) (h : ¬ s.timeLeft - inp.dt ≤ 0) :
    (hostTick s pid ln le inp).state =
      stepSpawn
        (stepCollisions (stepEventTimer (tickTimer (integrateInput s pid inp.dx0 inp.dy0) inp.dt) inp.dt))
        inp.spawnRoll (spawnedPresent inp.spawnId inp.spawnRx inp.spawnRy inp.spawnHigh)
    ∧ (hostTick s pid ln le inp).stopped = false
    ∧ (hostTick s pid ln le inp).gameOverWinner = none
    ∧ (shouldBroadcast inp.time ln = true →
        (hostTick s pid ln le inp).broadcasts
          = [NetworkMessage.GAME_UPDATE (hostTick s pid ln le inp).state]
        ∧ (hostTick s pid ln le inp).lastNetworkUpdate = inp.time)
    ∧ (shouldBroadcast inp.time ln = false →
        (hostTick s pid ln le inp).broadcasts = []
        ∧ (hostTick s pid ln le inp).lastNetworkUpdate = ln) := by
  have hc : ¬ (tickTimer (integrateInput s pid inp.dx0 inp.dy0) inp.dt).timeLeft ≤ 0 := by
    simpa [tickTimer, integrateInput_timeLeft] using h
  simp only [hostTick, if_neg hc]
  cases hb : shouldBroadcast inp.time ln <;> simp [hb]

/-! ## Pointwise player correspondence across a tick -/

theorem forall2_comp {α β γ : Type} {R : α → β → Prop} {S : β → γ → Prop}
    {T : α → γ → Prop} (hc : ∀ a b c, R a b → S b c → T a c) :
    ∀ {l₁ : List α} {l₂ : List β} {l₃ : List γ},
      List.Forall₂ R l₁ l₂ → List.Forall₂ S l₂ l₃ → List.Forall₂ T l₁ l₃ := by
  intro l₁ l₂ l₃ h₁
  induction h₁ generalizing l₃ with
  | nil =>
    intro h₂; cases h₂; exact List.Forall₂.nil
  | cons hab _ ih =>
    intro h₂
    cases h₂ with
    | cons hbc htail => exact List.Forall₂.cons (hc _ _ _ hab hbc) (ih htail)

theorem forall2_mem_right {α β : Type} {R : α → β → Prop} :
    ∀ {l₁ : List α} {l₂ : List β}, List.Forall₂ R l₁ l₂ →
      ∀ b ∈ l₂, ∃ a ∈ l₁, R a b := by
  intro l₁ l₂ h
  induction h with
  | nil => intro b hb; cases hb
  | cons hab _ ih =>
    intro b hb
    rcases List.mem_cons.1 hb with hb | hb
    · exact ⟨_, List.mem_cons_self .., hb ▸ hab⟩
    · rcases ih b hb with ⟨a, ha, hr⟩
      exact ⟨a, List.mem_cons_of_mem _ ha, hr⟩

theorem applyLocalMove_players_shape (s : GameState) (pid : String) (dx dy : ℤ) :
    List.Forall₂
      (fun p q => q.id = p.id ∧ q.score = p.score ∧ q.frozen = p.frozen
        ∧ q.inverted = p.inverted ∧ (p.id ≠ pid → q = p))
      s.players (applyLocalMove s pid dx dy).players := by
  unfold applyLocalMove
  split
  · show List.Forall₂ _ s.players (s.players.map _)
    rw [List.forall₂_map_right_iff]
    rw [List.forall₂_same]
    intro p _
    by_cases hid : p.id = pid
    · simp [hid]
    · simp [hid]
  · rw [List.forall₂_same]
    intro p _
    exact ⟨rfl, rfl, rfl, rfl, fun _ => rfl⟩

theorem resolveCollisions_players_shape (ev : Option ChaosEvent) :
    ∀ (players : List Player) (presents : List Present),
      List.Forall₂
        (fun p q => q.id = p.id ∧ q.x = p.x ∧ q.y = p.y ∧ q.frozen = p.frozen
          ∧ q.inverted = p.inverted)
        players (resolveCollisions ev players presents).1 := by
  intro players
  induction players with
  | nil => intro presents; exact List.Forall₂.nil
  | cons p rest ih =>
    intro presents
    exact List.Forall₂.cons ⟨rfl, rfl, rfl, rfl, rfl⟩ (ih _)

/-- Across one host tick, the player list keeps its length and order;
each player keeps its identity and both status flags, and every player
other than the local one also keeps its exact position. -/
theorem hostTick_players_shape (s : GameState) (pid : String) (ln le : ℚ)
    (inp : TickInput) :
    List.Forall₂
      (fun p q => q.id = p.id ∧ q.frozen = p.frozen ∧ q.inverted = p.inverted
        ∧ (p.id ≠ pid → q.x = p.x ∧ q.y = p.y))
      s.players (hostTick s pid ln le inp).state.players := by
  have hmove := applyLocalMove_players_shape s pid
    (inputAfterEvent (s.players.find? (fun p => p.id = pid)) s.activeEvent inp.dx0 inp.dy0).1
    (inputAfterEvent (s.players.find? (fun p => p.id = pid)) s.activeEvent inp.dx0 inp.dy0).2
  have hstep : (integrateInput s pid inp.dx0 inp.dy0).players
      = (applyLocalMove s pid
          (inputAfterEvent (s.players.find? (fun p => p.id = pid)) s.activeEvent inp.dx0 inp.dy0).1
          (inputAfterEvent (s.players.find? (fun p => p.id = pid)) s.activeEvent inp.dx0 inp.dy0).2).players := rfl
  by_cases h : s.timeLeft - inp.dt ≤ 0
  · rw [hostTick_of_final s pid ln le inp h]
    show List.Forall₂ _ s.players (tickTimer (integrateInput s pid inp.dx0 inp.dy0) inp.dt).players
    have : (tickTimer (integrateInput s pid inp.dx0 inp.dy0) inp.dt).players
        = (integrateInput s pid inp.dx0 inp.dy0).players := rfl
    rw [this, hstep]
    refine List.Forall₂.imp ?_ hmove
    rintro p q ⟨hid, _, hf, hi, hxy⟩
    exact ⟨hid, hf, hi, fun hne => by rw [hxy hne]; exact ⟨rfl, rfl⟩⟩
  · rw [(hostTick_of_live s pid ln le inp h).1]
    rw [stepSpawn_players]
    show List.Forall₂ _ s.players
      (resolveCollisions
        (stepEventTimer (tickTimer (integrateInput s pid inp.dx0 inp.dy0) inp.dt) inp.dt).activeEvent
        (stepEventTimer (tickTimer (integrateInput s pid inp.dx0 inp.dy0) inp.dt) inp.dt).players
        (stepEventTimer (tickTimer (integrateInput s pid inp.dx0 inp.dy0) inp.dt) inp.dt).presents).1
    have hpl : (stepEventTimer (tickTimer (integrateInput s pid inp.dx0 inp.dy0) inp.dt) inp.dt).players
        = (integrateInput s pid inp.dx0 inp.dy0).players := by
      rw [stepEventTimer_players]; rfl
    rw [hpl, hstep]
    refine forall2_comp ?_ hmove (resolveCollisions_players_shape _ _ _)
    rintro p q r ⟨hid, _, hf, hi, hxy⟩ ⟨hid2, hx2, hy2, hf2, hi2⟩
    refine ⟨hid2.trans hid, hf2.trans hf, hi2.trans hi, fun hne => ?_⟩
    have := hxy hne
    subst this
    exact ⟨hx2, hy2⟩

/-! ## Winner-selection lemmas -/

theorem insertionSort_ne_nil {l : List Player} (h : l ≠ []) :
    l.insertionSort byScoreDesc ≠ [] := by
  intro he
  apply h
  have hlen := List.length_insertionSort byScoreDesc l
  rw [he] at hlen
  exact List.eq_nil_of_length_eq_zero hlen.symm

theorem sortDesc_head_max {l : List Player} {hd : Player} {t : List Player}
    (he : l.insertionSort byScoreDesc = hd :: t) :
    hd ∈ l ∧ ∀ q ∈ l, q.score ≤ hd.score := by
  have hsorted := List.sorted_insertionSort byScoreDesc l
  rw [he] at hsorted
  constructor
  · have : hd ∈ l.insertionSort byScoreDesc := by
      rw [he]; exact List.mem_cons_self ..
    exact (List.mem_insertionSort byScoreDesc).1 this
  · intro q hq
    have hq2 : q ∈ hd :: t := by
      rw [← he]; exact (List.mem_insertionSort byScoreDesc).2 hq
    rcases List.mem_cons.1 hq2 with hq2 | hq2
    · rw [hq2]
    · exact List.rel_of_sorted_cons hsorted q hq2

theorem getWinner_of_strict_max {l : List Player} {p : Player} (hp : p ∈ l)
    (hstrict : ∀ q ∈ l, q.id ≠ p.id → q.score < p.score) :
    getWinner l = p.id := by
  have hne : l ≠ [] := List.ne_nil_of_mem hp
  cases hs : l.insertionSort byScoreDesc with
  | nil => exact absurd hs (insertionSort_ne_nil hne)
  | cons hd t =>
    obtain ⟨hmem, hmax⟩ := sortDesc_head_max hs
    have hw : getWinner l = hd.id := by
      unfold getWinner
      rw [hs]
    by_cases hid : hd.id = p.id
    · rw [hw, hid]
    · have h1 := hstrict hd hmem hid
      have h2 := hmax p hp
      omega

theorem getWinner_firstMax :
    ∀ (l₁ : List Player) (p : Player) (l₂ : List Player),
      (∀ q ∈ l₁, q.score < p.score) → (∀ q ∈ l₂, q.score ≤ p.score) →
      getWinner (l₁ ++ p :: l₂) = p.id := by
  intro l₁
  induction l₁ with
  | nil =>
    intro p l₂ _ h2
    show getWinner (p :: l₂) = p.id
    have hrw : (p :: l₂).insertionSort byScoreDesc
        = (l₂.insertionSort byScoreDesc).orderedInsert byScoreDesc p := rfl
    cases hs : l₂.insertionSort byScoreDesc with
    | nil =>
      unfold getWinner
      rw [hrw, hs]
      rfl
    | cons b t =>
      have hb : b ∈ l₂ := by
        have : b ∈ l₂.insertionSort byScoreDesc := by
          rw [hs]; exact List.mem_cons_self ..
        exact (List.mem_insertionSort byScoreDesc).1 this
      have hle : byScoreDesc p b := h2 b hb
      unfold getWinner
      rw [hrw, hs, List.orderedInsert, if_pos hle]
  | cons a l₁ ih =>
    intro p l₂ h1 h2
    have h1t : ∀ q ∈ l₁, q.score < p.score :=
      fun q hq => h1 q (List.mem_cons_of_mem a hq)
    have hihw := ih p l₂ h1t h2
    have hne : l₁ ++ p :: l₂ ≠ [] := by
      intro hcon
      exact absurd (hcon ▸ List.mem_append_right l₁ (List.mem_cons_self ..)) (List.not_mem_nil p)
    cases hs : (l₁ ++ p :: l₂).insertionSort byScoreDesc with
    | nil => exact absurd hs (insertionSort_ne_nil hne)
    | cons hd t =>
      obtain ⟨_, hmax⟩ := sortDesc_head_max hs
      have hdid : hd.id = p.id := by
        have : getWinner (l₁ ++ p :: l₂) = hd.id := by
          unfold getWinner; rw [hs]
        rw [← this, hihw]
      have hpmem : p ∈ l₁ ++ p :: l₂ := List.mem_append_right l₁ (List.mem_cons_self ..)
      have hps : p.score ≤ hd.score := hmax p hpmem
      have has : a.score < p.score := h1 a (List.mem_cons_self ..)
      have hnotle : ¬ byScoreDesc a hd := by
        unfold byScoreDesc
        omega
      have hrw : (a :: (l₁ ++ p :: l₂)).insertionSort byScoreDesc
          = ((l₁ ++ p :: l₂).insertionSort byScoreDesc).orderedInsert byScoreDesc a := rfl
      show getWinner (a :: (l₁ ++ p :: l₂)) = p.id
      unfold getWinner
      rw [hrw, hs, List.orderedInsert, if_neg hnotle, ← hdid]

/-! ## Collision-resolution lemmas -/

theorem resolveCollisions_presents (ev : Option ChaosEvent) :
    ∀ (players : List Player) (presents : List Present),
      (resolveCollisions ev players presents).2
        = presents.filter (fun q => players.all (fun p => !hits p q)) := by
  intro players
  induction players with
  | nil =>
    intro presents
    simp [resolveCollisions]
  | cons p rest ih =>
    intro presents
    show (resolveCollisions ev rest (presents.filter (fun q => !hits p q))).2 = _
    rw [ih]
    rw [List.filter_filter]
    apply List.filter_congr
    intro q _
    simp [List.all_cons, Bool.and_comm]

theorem sum_points_or_split (f : Present → ℕ) (a b : Present → Bool) :
    ∀ pr : List Present,
      ((pr.filter (fun q => a q || b q)).map f).sum
        = ((pr.filter a).map f).sum
          + (((pr.filter (fun q => !a q)).filter b).map f).sum := by
  intro pr
  induction pr with
  | nil => rfl
  | cons q t ih =>
    by_cases ha : a q <;> by_cases hb : b q <;>
      simp [List.filter_cons, ha, hb, ih] <;> omega

theorem resolveCollisions_sumScores (ev : Option ChaosEvent) :
    ∀ (players : List Player) (presents : List Present),
      sumScores (resolveCollisions ev players presents).1
        = sumScores players
          + ((presents.filter (fun q => players.any (fun p => hits p q))).map
              (presentPoints ev)).sum := by
  intro players
  induction players with
  | nil =>
    intro presents
    simp [resolveCollisions, sumScores]
  | cons p rest ih =>
    intro presents
    show sumScores ((collectOne ev p presents).1
        :: (resolveCollisions ev rest (presents.filter (fun q => !hits p q))).1) = _
    have hsum : sumScores ((collectOne ev p presents).1
          :: (resolveCollisions ev rest (presents.filter (fun q => !hits p q))).1)
        = (collectOne ev p presents).1.score
          + sumScores (resolveCollisions ev rest (presents.filter (fun q => !hits p q))).1 := by
      simp [sumScores]
    rw [hsum, ih]
    have hhead : (collectOne ev p presents).1.score
        = p.score + ((presents.filter (fun q => hits p q)).map (presentPoints ev)).sum := rfl
    rw [hhead]
    have hcons : sumScores (p :: rest) = p.score + sumScores rest := by
      simp [sumScores]
    rw [hcons]
    have hsplit := sum_points_or_split (presentPoints ev)
      (fun q => hits p q) (fun q => rest.any (fun o => hits o q)) presents
    have hanys : presents.filter (fun q => (p :: rest).any (fun o => hits o q))
        = presents.filter (fun q => hits p q || rest.any (fun o => hits o q)) := by
      apply List.filter_congr
      intro q _
      simp [List.any_cons]
    rw [hanys, hsplit]
    omega

theorem resolveCollisions_append (ev : Option ChaosEvent) :
    ∀ (l₁ l₂ : List Player) (presents : List Present),
      resolveCollisions ev (l₁ ++ l₂) presents
        = ((resolveCollisions ev l₁ presents).1
            ++ (resolveCollisions ev l₂ (resolveCollisions ev l₁ presents).2).1,
           (resolveCollisions ev l₂ (resolveCollisions ev l₁ presents).2).2) := by
  intro l₁
  induction l₁ with
  | nil => intro l₂ presents; rfl
  | cons p rest ih =>
    intro l₂ presents
    show ((collectOne ev p presents).1
        :: (resolveCollisions ev (rest ++ l₂) (collectOne ev p presents).2).1,
        (resolveCollisions ev (rest ++ l₂) (collectOne ev p presents).2).2) = _
    rw [ih]
    rfl

/-! ## Broadcast-throttle lemmas -/

theorem hostTick_broadcast_facts (s : GameState) (pid : String) (ln le : ℚ)
    (inp : TickInput) :
    ((hostTick s pid ln le inp).broadcasts = []
      ∧ (hostTick s pid ln le inp).lastNetworkUpdate = ln)
    ∨ (40 < inp.time - ln
      ∧ (hostTick s pid ln le inp).broadcasts ≠ []
      ∧ (hostTick s pid ln le inp).lastNetworkUpdate = inp.time) := by
  by_cases h : s.timeLeft - inp.dt ≤ 0
  · left
    rw [hostTick_of_final s pid ln le inp h]
    exact ⟨rfl, rfl⟩
  · obtain ⟨-, -, -, hyes, hno⟩ := hostTick_of_live s pid ln le inp h
    cases hb : shouldBroadcast inp.time ln with
    | false =>
      left
      exact hno hb
    | true =>
      right
      obtain ⟨h1, h2⟩ := hyes hb
      refine ⟨of_decide_eq_true hb, ?_, h2⟩
      rw [h1]
      simp

theorem hostTick_stopped_broadcasts (s : GameState) (pid : String) (ln le : ℚ)
    (inp : TickInput) (h : (hostTick s pid ln le inp).stopped = true) :
    (hostTick s pid ln le inp).broadcasts = [] := by
  by_cases hf : s.timeLeft - inp.dt ≤ 0
  · rw [hostTick_of_final s pid ln le inp hf]
  · obtain ⟨-, hstop, -⟩ := hostTick_of_live s pid ln le inp hf
    rw [hstop] at h
    cases h

theorem emissionTimes_eq_filterMap (pid : String) :
    ∀ (frames : List TickInput) (s : GameState) (ln le : ℚ),
      emissionTimes pid s ln le frames
        = (hostRun pid s ln le frames).filterMap
            (fun tb => if tb.2.isEmpty then none else some tb.1) := by
  intro frames
  induction frames with
  | nil => intro s ln le; rfl
  | cons inp rest ih =>
    intro s ln le
    show (if (hostTick s pid ln le inp).stopped then _ else _) = _
    by_cases hstop : (hostTick s pid ln le inp).stopped
    · have hrun : hostRun pid s ln le (inp :: rest)
          = [(inp.time, (hostTick s pid ln le inp).broadcasts)] := by
        simp [hostRun, hstop]
      rw [if_pos hstop, hrun]
      cases hx : (hostTick s pid ln le inp).broadcasts with
      | nil => simp [List.filterMap_cons, hx]
      | cons a t => simp [List.filterMap_cons, hx]
    · have hrun : hostRun pid s ln le (inp :: rest)
          = (inp.time, (hostTick s pid ln le inp).broadcasts)
            :: hostRun pid (hostTick s pid ln le inp).state
                (hostTick s pid ln le inp).lastNetworkUpdate
                (hostTick s pid ln le inp).lastEventTrigger rest := by
        simp [hostRun, hstop]
      rw [if_neg hstop, hrun]
      cases hx : (hostTick s pid ln le inp).broadcasts with
      | nil => simp [List.filterMap_cons, hx, ih]
      | cons a t => simp [List.filterMap_cons, hx, ih]

theorem emissionTimes_chain (pid : String) :
    ∀ (frames : List TickInput) (s : GameState) (ln le : ℚ),
      List.Chain' (fun a b => a + 40 ≤ b) (emissionTimes pid s ln le frames)
      ∧ ∀ t ∈ emissionTimes pid s ln le frames, ln + 40 < t := by
  intro frames
  induction frames with
  | nil =>
    intro s ln le
    exact ⟨List.chain'_nil, fun t ht => absurd ht (List.not_mem_nil t)⟩
  | cons inp rest ih =>
    intro s ln le
    show List.Chain' _ (if (hostTick s pid ln le inp).stopped then _ else _)
      ∧ ∀ t ∈ (if (hostTick s pid ln le inp).stopped then _ else _), ln + 40 < t
    by_cases hstop : (hostTick s pid ln le inp).stopped
    · have hbe : (hostTick s pid ln le inp).broadcasts = [] :=
        hostTick_stopped_broadcasts s pid ln le inp hstop
      rw [if_pos hstop, hbe]
      exact ⟨List.chain'_nil, fun t ht => absurd ht (List.not_mem_nil t)⟩
    · rw [if_neg hstop]
      rcases hostTick_broadcast_facts s pid ln le inp with ⟨hbe, hlast⟩ | ⟨hgt, hbne, hlast⟩
      · rw [hbe]
        show List.Chain' _ (emissionTimes pid _ _ _ rest)
          ∧ ∀ t ∈ emissionTimes pid _ _ _ rest, ln + 40 < t
        rw [hlast]
        exact ih (hostTick s pid ln le inp).state ln (hostTick s pid ln le inp).lastEventTrigger
      · have hbif : (hostTick s pid ln le inp).broadcasts.isEmpty = false := by
          cases hx : (hostTick s pid ln le inp).broadcasts with
          | nil => exact absurd hx hbne
          | cons a t => rfl
        rw [hbif]
        show List.Chain' _ (inp.time :: emissionTimes pid _ _ _ rest)
          ∧ ∀ t ∈ inp.time :: emissionTimes pid _ _ _ rest, ln + 40 < t
        rw [hlast]
        obtain ⟨hch, hbd⟩ := ih (hostTick s pid ln le inp).state inp.time
          (hostTick s pid ln le inp).lastEventTrigger
        constructor
        · refine List.Chain'.cons' hch ?_
          intro y hy
          have : y ∈ emissionTimes pid (hostTick s pid ln le inp).state inp.time
              (hostTick s pid ln le inp).lastEventTrigger rest :=
            List.mem_of_mem_head? hy
          have := hbd y this
          linarith
        · intro t ht
          rcases List.mem_cons.1 ht with ht | ht
          · rw [ht]; linarith
          · have := hbd t ht
            linarith

/-! ## Event-modifier lemmas -/

theorem reversedInput_of_not_reverse (ev : Option ChaosEvent)
    (h : ev.map ChaosEvent.type ≠ some EventType.REVERSE_CONTROLS) (dx0 dy0 : ℤ) :
    reversedInput ev dx0 dy0 = (dx0, dy0) := by
  unfold reversedInput
  rw [if_neg h]

theorem eventSpeed_of_plain (ev : Option ChaosEvent)
    (h1 : ev.map ChaosEvent.type ≠ some EventType.SPEED_BOOST)
    (h2 : ev.map ChaosEvent.type ≠ some EventType.SLOWNESS) :
    eventSpeed ev = MOVEMENT_SPEED := by
  unfold eventSpeed
  dsimp only
  rw [if_neg h1, if_neg h2]

theorem presentPoints_of_not_double (ev : Option ChaosEvent)
    (h : ev.map ChaosEvent.type ≠ some EventType.DOUBLE_POINTS) (q : Present) :
    presentPoints ev q = q.value := by
  unfold presentPoints
  rw [if_neg h]

theorem presentPoints_congr_of_types (evA evB : Option ChaosEvent)
    (hA : evA = none ∨ ∃ e1, evA = some e1 ∧ e1.type ≠ EventType.DOUBLE_POINTS)
    (hB : evB = none ∨ ∃ e1, evB = some e1 ∧ e1.type ≠ EventType.DOUBLE_POINTS)
    (q : Present) : presentPoints evA q = presentPoints evB q := by
  have hval : ∀ e : Option ChaosEvent,
      (e = none ∨ ∃ e1, e = some e1 ∧ e1.type ≠ EventType.DOUBLE_POINTS) →
      presentPoints e q = q.value := by
    rintro e (rfl | ⟨e1, rfl, hne⟩)
    · rfl
    · apply presentPoints_of_not_double
      simp [hne]
  rw [hval evA hA, hval evB hB]

theorem resolveCollisions_points_congr (ev₁ ev₂ : Option ChaosEvent)
    (h : ∀ q, presentPoints ev₁ q = presentPoints ev₂ q) :
    ∀ (players : List Player) (presents : List Present),
      resolveCollisions ev₁ players presents = resolveCollisions ev₂ players presents := by
  intro players
  induction players with
  | nil => intro presents; rfl
  | cons p rest ih =>
    intro presents
    have hc : collectOne ev₁ p presents = collectOne ev₂ p presents := by
      unfold collectOne
      rw [List.map_congr_left (fun q _ => h q)]
    show ((collectOne ev₁ p presents).1
        :: (resolveCollisions ev₁ rest (collectOne ev₁ p presents).2).1,
        (resolveCollisions ev₁ rest (collectOne ev₁ p presents).2).2) = _
    rw [hc, ih]
    rfl

theorem applyLocalMove_players_congr (s t : GameState) (pid : String) (dx dy : ℤ)
    (hp : s.players = t.players)
    (hev : eventSpeed s.activeEvent = eventSpeed t.activeEvent) :
    (applyLocalMove s pid dx dy).players = (applyLocalMove t pid dx dy).players := by
  by_cases hc : dx ≠ 0 ∨ dy ≠ 0 <;> simp [applyLocalMove, hc, hp, hev]

theorem stepEventTimer_activeEvent_of_some (s : GameState) (dt : ℚ)
    (e0 : ChaosEvent) (h : s.activeEvent = some e0) :
    (stepEventTimer s dt).activeEvent = none
    ∨ ∃ e1, (stepEventTimer s dt).activeEvent = some e1 ∧ e1.type = e0.type := by
  unfold stepEventTimer
  simp only [h]
  split
  · dsimp only
    split
    · left; rfl
    · right; exact ⟨_, rfl, rfl⟩
  · right
    refine ⟨e0, ?_, rfl⟩
    exact h

theorem stepEventTimer_activeEvent_of_none (s : GameState) (dt : ℚ)
    (h : s.activeEvent = none) : (stepEventTimer s dt).activeEvent = none := by
  unfold stepEventTimer
  simp only [h]

/-- Under a FREEZE event the host tick moves and scores the players
exactly as it would with no active event. -/
theorem hostTick_freeze_players (s2 : GameState) (pid : String) (ln le : ℚ)
    (inp : TickInput) (ev : ChaosEvent) (hty : ev.type = EventType.FREEZE) :
    (hostTick { s2 with activeEvent := some ev } pid ln le inp).state.players
      = (hostTick { s2 with activeEvent := none } pid ln le inp).state.players := by
  have hint : (integrateInput { s2 with activeEvent := some ev } pid inp.dx0 inp.dy0).players
      = (integrateInput { s2 with activeEvent := none } pid inp.dx0 inp.dy0).players := by
    unfold integrateInput
    have hnrA : (Option.map ChaosEvent.type (some ev)) ≠ some EventType.REVERSE_CONTROLS := by
      simp [hty]
    have hnrB : (Option.map ChaosEvent.type (none : Option ChaosEvent))
        ≠ some EventType.REVERSE_CONTROLS := by simp
    have hv : inputAfterEvent (s2.players.find? (fun p => p.id = pid)) (some ev) inp.dx0 inp.dy0
        = inputAfterEvent (s2.players.find? (fun p => p.id = pid)) (none : Option ChaosEvent)
            inp.dx0 inp.dy0 := by
      unfold inputAfterEvent
      cases s2.players.find? (fun p => p.id = pid) with
      | none => rfl
      | some p =>
        by_cases hf : p.frozen <;>
          simp [hf, reversedInput_of_not_reverse _ hnrA, reversedInput_of_not_reverse _ hnrB]
    have hsp : eventSpeed (some ev) = eventSpeed (none : Option ChaosEvent) := by
      rw [eventSpeed_of_plain _ (by simp [hty]) (by simp [hty]),
        eventSpeed_of_plain _ (by simp) (by simp)]
    show (applyLocalMove _ pid
        (inputAfterEvent (s2.players.find? (fun p => p.id = pid)) (some ev) inp.dx0 inp.dy0).1
        (inputAfterEvent (s2.players.find? (fun p => p.id = pid)) (some ev) inp.dx0 inp.dy0).2).players
      = (applyLocalMove _ pid
        (inputAfterEvent (s2.players.find? (fun p => p.id = pid)) (none : Option ChaosEvent) inp.dx0 inp.dy0).1
        (inputAfterEvent (s2.players.find? (fun p => p.id = pid)) (none : Option ChaosEvent) inp.dx0 inp.dy0).2).players
    rw [hv]
    exact applyLocalMove_players_congr _ _ pid _ _ rfl hsp
  by_cases hfin : s2.timeLeft - inp.dt ≤ 0
  · rw [hostTick_of_final { s2 with activeEvent := some ev } pid ln le inp hfin,
      hostTick_of_final { s2 with activeEvent := none } pid ln le inp hfin]
    exact hint
  · rw [(hostTick_of_live { s2 with activeEvent := some ev } pid ln le inp hfin).1,
      (hostTick_of_live { s2 with activeEvent := none } pid ln le inp hfin).1]
    rw [stepSpawn_players, stepSpawn_players]
    have hpl3 : (stepEventTimer (tickTimer (integrateInput { s2 with activeEvent := some ev } pid inp.dx0 inp.dy0) inp.dt) inp.dt).players
        = (stepEventTimer (tickTimer (integrateInput { s2 with activeEvent := none } pid inp.dx0 inp.dy0) inp.dt) inp.dt).players := by
      rw [stepEventTimer_players, stepEventTimer_players]
      exact hint
    have hpr3 : (stepEventTimer (tickTimer (integrateInput { s2 with activeEvent := some ev } pid inp.dx0 inp.dy0) inp.dt) inp.dt).presents
        = (stepEventTimer (tickTimer (integrateInput { s2 with activeEvent := none } pid inp.dx0 inp.dy0) inp.dt) inp.dt).presents := by
      rw [stepEventTimer_presents, stepEventTimer_presents]
      show (integrateInput { s2 with activeEvent := some ev } pid inp.dx0 inp.dy0).presents
        = (integrateInput { s2 with activeEvent := none } pid inp.dx0 inp.dy0).presents
      rw [integrateInput_presents, integrateInput_presents]
    have hAae : (tickTimer (integrateInput { s2 with activeEvent := some ev } pid inp.dx0 inp.dy0) inp.dt).activeEvent = some ev := by
      show (integrateInput { s2 with activeEvent := some ev } pid inp.dx0 inp.dy0).activeEvent = some ev
      rw [integrateInput_activeEvent]
    have hBae : (tickTimer (integrateInput { s2 with activeEvent := none } pid inp.dx0 inp.dy0) inp.dt).activeEvent = none := by
      show (integrateInput { s2 with activeEvent := none } pid inp.dx0 inp.dy0).activeEvent = none
      rw [integrateInput_activeEvent]
    have hAcase : (stepEventTimer (tickTimer (integrateInput { s2 with activeEvent := some ev } pid inp.dx0 inp.dy0) inp.dt) inp.dt).activeEvent = none
        ∨ ∃ e1, (stepEventTimer (tickTimer (integrateInput { s2 with activeEvent := some ev } pid inp.dx0 inp.dy0) inp.dt) inp.dt).activeEvent = some e1
            ∧ e1.type ≠ EventType.DOUBLE_POINTS := by
      rcases stepEventTimer_activeEvent_of_some _ inp.dt ev hAae with hA | ⟨e1, hA, he1⟩
      · exact Or.inl hA
      · exact Or.inr ⟨e1, hA, by rw [he1, hty]; decide⟩
    have hBcase := stepEventTimer_activeEvent_of_none _ inp.dt hBae
    have hevp := presentPoints_congr_of_types _ _ hAcase (Or.inl hBcase)
    show (resolveCollisions _ _ _).1 = (resolveCollisions _ _ _).1
    rw [resolveCollisions_points_congr _ _ hevp, hpl3, hpr3]

/-- No reachable host state contains a player whose `frozen` or
`inverted` flag is set: no operation ever sets either flag. -/
theorem frozen_inverted_invariant (s : GameState) (hs : Reachable s) :
    ∀ p ∈ s.players, p.frozen = false ∧ p.inverted = false := by
  induction hs with
  | init id name skin =>
    intro p hp
    have : p = initialPlayer id name skin := by
      simpa [initialGameState] using hp
    subst this
    exact ⟨rfl, rfl⟩
  | message s msg src r1 r2 _ ih =>
    intro p hp
    cases msg with
    | JOIN_REQUEST name skin =>
      rcases List.mem_append.1 hp with hp | hp
      · exact ih p hp
      · have : p = joinedPlayer src name skin r1 r2 := by simpa using hp
        subst this
        exact ⟨rfl, rfl⟩
    | JOIN_ACCEPT g i => exact ih p hp
    | INPUT dx dy => exact ih p hp
    | GAME_UPDATE g => exact ih p hp
    | START_GAME => exact ih p hp
    | GAME_OVER w => exact ih p hp
  | tick s pid ln le inp _ ih =>
    intro p hp
    rcases forall2_mem_right (hostTick_players_shape s pid ln le inp) p hp
      with ⟨p0, hp0, _, hf, hi, _⟩
    obtain ⟨hf0, hi0⟩ := ih p0 hp0
    exact ⟨hf.trans hf0, hi.trans hi0⟩
  | gameOver s w _ ih => intro p hp; exact ih p hp
  | chaos s e _ ih => intro p hp; exact ih p hp

/-- Positions produced by the per-axis clamp stay inside `[0, hi]`. -/
theorem clampAxis_bounds (hi v : ℚ) (hhi : 0 ≤ hi) :
    0 ≤ clampAxis hi v ∧ clampAxis hi v ≤ hi := by
  unfold clampAxis
  constructor
  · exact le_max_left 0 _
  · exact max_le hhi (min_le_left hi v)

/-! ## Claim theorems -/

/-- C1: the claim fails on the code.  The host's `INPUT` message branch
contains only comments: an incoming remote input vector is discarded
without any state change or reply, and the host tick moves only the
local player, so a non-host player's position on the authoritative
state never changes in response to its INPUT messages. -/
theorem c1_remote_input_never_applied :
    (∀ (s : GameState) (dx dy : ℤ) (src : String) (r1 r2 : ℚ),
      hostOnMessage s (NetworkMessage.INPUT dx dy) src r1 r2 = (s, []))
    ∧ (∀ (s : GameState) (pid : String) (ln le : ℚ) (inp : TickInput),
      List.Forall₂
        (fun p q => q.id = p.id ∧ (p.id ≠ pid → q.x = p.x ∧ q.y = p.y))
        s.players (hostTick s pid ln le inp).state.players)
    ∧ (hostOnMessage demoLiveState (NetworkMessage.INPUT 1 0) "c" 0 0).1 = demoLiveState
    ∧ ((hostTick demoLiveState "h" 0 0 demoTickInput).state.players.any
        (fun p => p.id = "c" && decide (p.x = 100) && decide (p.y = 100))) = true := by
  refine ⟨fun s dx dy src r1 r2 => rfl, fun s pid ln le inp => ?_, rfl, ?_⟩
  · refine List.Forall₂.imp ?_ (hostTick_players_shape s pid ln le inp)
    rintro p q ⟨hid, _, _, hxy⟩
    exact ⟨hid, hxy⟩
  · have hl : ¬ demoLiveState.timeLeft - demoTickInput.dt ≤ 0 := by
      norm_num [demoLiveState, demoTickInput]
    rw [(hostTick_of_live demoLiveState "h" 0 0 demoTickInput hl).1]
    decide

/-- C2: the claim fails on the code.  No host-side send path ever emits
a `GAME_OVER` message: the tick's broadcasts contain none, the message
handler's replies contain none, `startGame` broadcasts `START_GAME`,
and the concrete expiring tick finalizes locally (invoking `onGameOver`
and stopping the loop) while broadcasting nothing at all. -/
theorem c2_game_over_never_broadcast :
    (∀ (s : GameState) (pid : String) (ln le : ℚ) (inp : TickInput),
      ((hostTick s pid ln le inp).broadcasts.filter NetworkMessage.isGameOverMsg) = [])
    ∧ (∀ (s : GameState) (msg : NetworkMessage) (src : String) (r1 r2 : ℚ),
      ((((hostOnMessage s msg src r1 r2).2.map Prod.snd).filter
          NetworkMessage.isGameOverMsg) = []))
    ∧ startGameBroadcast.isGameOverMsg = false
    ∧ (hostTick demoFinalState "h" 0 0 demoTickInput).gameOverWinner = some "h"
    ∧ (hostTick demoFinalState "h" 0 0 demoTickInput).stopped = true
    ∧ (hostTick demoFinalState "h" 0 0 demoTickInput).broadcasts = [] := by
  have hfin : demoFinalState.timeLeft - demoTickInput.dt ≤ 0 := by
    norm_num [demoFinalState, demoTickInput]
  refine ⟨?_, ?_, rfl, ?_, ?_, ?_⟩
  · intro s pid ln le inp
    by_cases h : s.timeLeft - inp.dt ≤ 0
    · rw [hostTick_of_final s pid ln le inp h]
      rfl
    · obtain ⟨-, -, -, hyes, hno⟩ := hostTick_of_live s pid ln le inp h
      cases hb : shouldBroadcast inp.time ln with
      | true => rw [(hyes hb).1]; rfl
      | false => rw [(hno hb).1]; rfl
  · intro s msg src r1 r2
    cases msg <;> rfl
  · rw [hostTick_of_final demoFinalState "h" 0 0 demoTickInput hfin]
    decide
  · rw [hostTick_of_final demoFinalState "h" 0 0 demoTickInput hfin]
  · rw [hostTick_of_final demoFinalState "h" 0 0 demoTickInput hfin]

/-- C3: the claim fails on the code.  The resolution step of
`handleTriggerGemini` checks only that a previous state exists — not
that the match is still running — so a fetch resolving after match end
installs the event into the terminal state, changing it. -/
theorem c3_fetch_installs_into_terminal_state :
    demoTerminalState.winnerId ≠ none
    ∧ handleTriggerGeminiResolve (some demoTerminalState) fallbackError
        = some { demoTerminalState with activeEvent := some fallbackError }
    ∧ ({ demoTerminalState with activeEvent := some fallbackError } : GameState)
        ≠ demoTerminalState := by
  exact ⟨by decide, rfl, by decide⟩

/-- C4 counterexample: players are not always created inside
`[0, CANVAS_WIDTH - PLAYER_SIZE] × [0, CANVAS_HEIGHT - PLAYER_SIZE]`.
A `JOIN_REQUEST` spawn uses `Math.random() * CANVAS_WIDTH`; with random
draws (0.99, 0.5) the joined player's x is 792 > 760, so the reachable
post-join state already violates the claimed invariant. -/
theorem c4_join_spawn_out_of_bounds :
    CANVAS_WIDTH - PLAYER_SIZE < (joinedPlayer "c" "Quest" PlayerSkin.ELF (99 / 100) (1 / 2)).x
    ∧ (joinedPlayer "c" "Quest" PlayerSkin.ELF (99 / 100) (1 / 2))
        ∈ (hostOnMessage (initialGameState "h" "Hosta" PlayerSkin.SANTA)
            (NetworkMessage.JOIN_REQUEST "Quest" PlayerSkin.ELF) "c" (99 / 100) (1 / 2)).1.players := by
  constructor
  · norm_num [joinedPlayer, CANVAS_WIDTH, PLAYER_SIZE]
  · show _ ∈ (initialGameState "h" "Hosta" PlayerSkin.SANTA).players
      ++ [joinedPlayer "c" "Quest" PlayerSkin.ELF (99 / 100) (1 / 2)]
    exact List.mem_append_right _ (List.mem_cons_self ..)

/-- C4 amended: the host's initial player is created inside
`[0, CANVAS_WIDTH - PLAYER_SIZE] × [0, CANVAS_HEIGHT - PLAYER_SIZE]`
and every tick's input integration clamps the integrated (local)
player's position into those bounds independently per axis; a joining
player, however, spawns anywhere in `[0, CANVAS_WIDTH) ×
[0, CANVAS_HEIGHT)` and may initially lie outside the clamp range. -/
theorem c4_integration_clamps_into_bounds (s : GameState) (pid : String)
    (dx dy : ℤ) (hmove : ¬(dx = 0 ∧ dy = 0)) (p : Player)
    (hp : p ∈ (applyLocalMove s pid dx dy).players) (hid : p.id = pid) :
    (0 ≤ p.x ∧ p.x ≤ CANVAS_WIDTH - PLAYER_SIZE
      ∧ 0 ≤ p.y ∧ p.y ≤ CANVAS_HEIGHT - PLAYER_SIZE)
    ∧ (∀ (i n : String) (sk : PlayerSkin) (q : Player),
        q ∈ (initialGameState i n sk).players →
        0 ≤ q.x ∧ q.x ≤ CANVAS_WIDTH - PLAYER_SIZE
          ∧ 0 ≤ q.y ∧ q.y ≤ CANVAS_HEIGHT - PLAYER_SIZE)
    ∧ (∀ (src n : String) (sk : PlayerSkin) (r1 r2 : ℚ),
        0 ≤ r1 → r1 < 1 → 0 ≤ r2 → r2 < 1 →
        0 ≤ (joinedPlayer src n sk r1 r2).x
          ∧ (joinedPlayer src n sk r1 r2).x < CANVAS_WIDTH
          ∧ 0 ≤ (joinedPlayer src n sk r1 r2).y
          ∧ (joinedPlayer src n sk r1 r2).y < CANVAS_HEIGHT) := by
  refine ⟨?_, ?_, ?_⟩
  · have hcond : dx ≠ 0 ∨ dy ≠ 0 := by tauto
    unfold applyLocalMove at hp
    rw [if_pos hcond] at hp
    rcases List.mem_map.1 hp with ⟨orig, -, rfl⟩
    by_cases ho : orig.id = pid
    · rw [if_pos ho] at hid ⊢
      have hW : (0 : ℚ) ≤ CANVAS_WIDTH - PLAYER_SIZE := by norm_num [CANVAS_WIDTH, PLAYER_SIZE]
      have hH : (0 : ℚ) ≤ CANVAS_HEIGHT - PLAYER_SIZE := by norm_num [CANVAS_HEIGHT, PLAYER_SIZE]
      obtain ⟨hx1, hx2⟩ := clampAxis_bounds (CANVAS_WIDTH - PLAYER_SIZE)
        (orig.x + (dx : ℚ) * eventSpeed s.activeEvent) hW
      obtain ⟨hy1, hy2⟩ := clampAxis_bounds (CANVAS_HEIGHT - PLAYER_SIZE)
        (orig.y + (dy : ℚ) * eventSpeed s.activeEvent) hH
      exact ⟨hx1, hx2, hy1, hy2⟩
    · rw [if_neg ho] at hid
      exact absurd hid ho
  · intro i n sk q hq
    have : q = initialPlayer i n sk := by simpa [initialGameState] using hq
    subst this
    refine ⟨?_, ?_, ?_, ?_⟩ <;>
      norm_num [initialPlayer, CANVAS_WIDTH, CANVAS_HEIGHT, PLAYER_SIZE]
  · intro src n sk r1 r2 h1 h2 h3 h4
    have hW : (0 : ℚ) < CANVAS_WIDTH := by norm_num [CANVAS_WIDTH]
    have hH : (0 : ℚ) < CANVAS_HEIGHT := by norm_num [CANVAS_HEIGHT]
    refine ⟨mul_nonneg h1 hW.le, ?_, mul_nonneg h3 hH.le, ?_⟩
    · calc r1 * CANVAS_WIDTH < 1 * CANVAS_WIDTH := by
            exact mul_lt_mul_of_pos_right h2 hW
        _ = CANVAS_WIDTH := one_mul _
    · calc r2 * CANVAS_HEIGHT < 1 * CANVAS_HEIGHT := by
            exact mul_lt_mul_of_pos_right h4 hH
        _ = CANVAS_HEIGHT := one_mul _

/-- The concrete player produced by integrating input (1, 0) on the
fresh host state: x is clamped from 400 + 5 = 405, y stays at 300. -/
def c4MovedPlayer : Player :=
  { initialPlayer "h" "Hosta" PlayerSkin.SANTA with
    x := clampAxis (CANVAS_WIDTH - PLAYER_SIZE)
      ((initialPlayer "h" "Hosta" PlayerSkin.SANTA).x
        + ((1 : ℤ) : ℚ) * eventSpeed (initialGameState "h" "Hosta" PlayerSkin.SANTA).activeEvent)
    y := clampAxis (CANVAS_HEIGHT - PLAYER_SIZE)
      ((initialPlayer "h" "Hosta" PlayerSkin.SANTA).y
        + ((0 : ℤ) : ℚ) * eventSpeed (initialGameState "h" "Hosta" PlayerSkin.SANTA).activeEvent) }

/-- Witness for the amended C4 theorem at a concrete moved player. -/
theorem c4_integration_clamps_witness :
    0 ≤ c4MovedPlayer.x ∧ c4MovedPlayer.x ≤ CANVAS_WIDTH - PLAYER_SIZE
      ∧ 0 ≤ c4MovedPlayer.y ∧ c4MovedPlayer.y ≤ CANVAS_HEIGHT - PLAYER_SIZE := by
  have hpl : (applyLocalMove (initialGameState "h" "Hosta" PlayerSkin.SANTA) "h" 1 0).players
      = [c4MovedPlayer] := rfl
  have hmem : c4MovedPlayer
      ∈ (applyLocalMove (initialGameState "h" "Hosta" PlayerSkin.SANTA) "h" 1 0).players := by
    rw [hpl]
    exact List.mem_cons_self ..
  exact (c4_integration_clamps_into_bounds
    (initialGameState "h" "Hosta" PlayerSkin.SANTA) "h" 1 0 (by decide)
    c4MovedPlayer hmem rfl).1

/-- C5: once the remaining time minus `dt` is nonpositive, the next
tick drives the clock to ≤ 0, stops the loop, performs no event
management, collision, spawn or broadcast work, and reports as winner
`getWinner` of the (post-movement) player list; the session layer marks
the state terminal by recording that winner.  `getWinner` picks the
player with the strictly highest score, and on ties the first player in
iteration order attaining the maximum — a function of the player list,
hence identical across repeated computations on identical state. -/
theorem c5_expiry_finalizes_with_max_winner (s : GameState) (pid : String)
    (ln le : ℚ) (inp : TickInput) (h : s.timeLeft - inp.dt ≤ 0) :
    (hostTick s pid ln le inp).state.timeLeft ≤ 0
    ∧ (hostTick s pid ln le inp).stopped = true
    ∧ (hostTick s pid ln le inp).broadcasts = []
    ∧ (hostTick s pid ln le inp).geminiTriggered = false
    ∧ (hostTick s pid ln le inp).state.presents = s.presents
    ∧ (hostTick s pid ln le inp).state.activeEvent = s.activeEvent
    ∧ (hostTick s pid ln le inp).gameOverWinner
        = some (getWinner (integrateInput s pid inp.dx0 inp.dy0).players)
    ∧ (∀ w, (handleGameOver (hostTick s pid ln le inp).state w).winnerId = some w)
    ∧ (∀ p ∈ (integrateInput s pid inp.dx0 inp.dy0).players,
        (∀ q ∈ (integrateInput s pid inp.dx0 inp.dy0).players,
          q.id ≠ p.id → q.score < p.score) →
        getWinner (integrateInput s pid inp.dx0 inp.dy0).players = p.id)
    ∧ (∀ (l₁ : List Player) (p : Player) (l₂ : List Player),
        (∀ q ∈ l₁, q.score < p.score) → (∀ q ∈ l₂, q.score ≤ p.score) →
        getWinner (l₁ ++ p :: l₂) = p.id) := by
  rw [hostTick_of_final s pid ln le inp h]
  refine ⟨?_, rfl, rfl, rfl, ?_, ?_, rfl, fun w => rfl,
    fun p hp hstrict => getWinner_of_strict_max hp hstrict, getWinner_firstMax⟩
  · show (integrateInput s pid inp.dx0 inp.dy0).timeLeft - inp.dt ≤ 0
    rw [integrateInput_timeLeft]
    exact h
  · show (integrateInput s pid inp.dx0 inp.dy0).presents = s.presents
    exact integrateInput_presents ..
  · show (integrateInput s pid inp.dx0 inp.dy0).activeEvent = s.activeEvent
    exact integrateInput_activeEvent ..

/-- Witness for C5 at the concrete expiring state (0.016 s left,
dt = 0.02 s): the tick finalizes with winner "h", the strictly
highest-scoring player. -/
theorem c5_expiry_witness :
    demoFinalState.timeLeft - demoTickInput.dt ≤ 0
    ∧ (hostTick demoFinalState "h" 0 0 demoTickInput).state.timeLeft ≤ 0
    ∧ (hostTick demoFinalState "h" 0 0 demoTickInput).stopped = true := by
  have h : demoFinalState.timeLeft - demoTickInput.dt ≤ 0 := by
    norm_num [demoFinalState, demoTickInput]
  exact ⟨h, (c5_expiry_finalizes_with_max_winner demoFinalState "h" 0 0 demoTickInput h).1,
    (c5_expiry_finalizes_with_max_winner demoFinalState "h" 0 0 demoTickInput h).2.1⟩

/-- C6 counterexample: the claim's combined REVERSE_CONTROLS +
SPEED_BOOST displacement is unreachable.  `activeEvent` holds a single
event with a single type, so at input (1, 0) a REVERSE_CONTROLS event
produces (-baseSpeed, 0) and a SPEED_BOOST event produces
(2·baseSpeed, 0) — neither is the claimed (-2·baseSpeed, 0). -/
theorem c6_reverse_boost_counterexample :
    fallbackError.type = EventType.REVERSE_CONTROLS
    ∧ tickDisplacement (some fallbackError) 1 0 = (-MOVEMENT_SPEED, 0)
    ∧ tickDisplacement (some { fallbackError with type := EventType.SPEED_BOOST }) 1 0
        = (2 * MOVEMENT_SPEED, 0)
    ∧ tickDisplacement (some fallbackError) 1 0 ≠ (-(2 * MOVEMENT_SPEED), 0)
    ∧ tickDisplacement (some { fallbackError with type := EventType.SPEED_BOOST }) 1 0
        ≠ (-(2 * MOVEMENT_SPEED), 0) := by
  refine ⟨rfl, ?_, ?_, ?_, ?_⟩ <;>
    simp [tickDisplacement, reversedInput, eventSpeed, fallbackError, MOVEMENT_SPEED,
      Prod.ext_iff] <;> norm_num

/-- C6 amended: each modifier acts alone, because at most one event is
active.  REVERSE_CONTROLS inverts both axes at unmodified base speed;
SPEED_BOOST doubles and SLOWNESS halves the speed without inverting;
and no single active event (hence no reachable configuration) produces
the displacement (-2·baseSpeed, 0) from input (1, 0). -/
theorem c6_event_modifier_composition (ev : ChaosEvent) (dx0 dy0 : ℤ) :
    (ev.type = EventType.REVERSE_CONTROLS →
      tickDisplacement (some ev) dx0 dy0
        = (-((dx0 : ℚ) * MOVEMENT_SPEED), -((dy0 : ℚ) * MOVEMENT_SPEED)))
    ∧ (ev.type = EventType.SPEED_BOOST →
      tickDisplacement (some ev) dx0 dy0
        = ((dx0 : ℚ) * (MOVEMENT_SPEED * 2), (dy0 : ℚ) * (MOVEMENT_SPEED * 2)))
    ∧ (ev.type = EventType.SLOWNESS →
      tickDisplacement (some ev) dx0 dy0
        = ((dx0 : ℚ) * (MOVEMENT_SPEED * (1 / 2)), (dy0 : ℚ) * (MOVEMENT_SPEED * (1 / 2))))
    ∧ (∀ e : Option ChaosEvent, tickDisplacement e 1 0 ≠ (-(2 * MOVEMENT_SPEED), 0)) := by
  refine ⟨?_, ?_, ?_, ?_⟩
  · intro h
    simp [tickDisplacement, reversedInput, eventSpeed, h, Prod.ext_iff]
  · intro h
    simp [tickDisplacement, reversedInput, eventSpeed, h, Prod.ext_iff]
  · intro h
    simp [tickDisplacement, reversedInput, eventSpeed, h, Prod.ext_iff]
  · rintro (_ | ⟨n, d, ty, du, ac⟩) <;> [skip; cases ty] <;>
      simp [tickDisplacement, reversedInput, eventSpeed, MOVEMENT_SPEED, Prod.ext_iff] <;>
      norm_num

/-- Witness for the amended C6 theorem: the concrete REVERSE_CONTROLS
fallback event inverts input (1, 0) at base speed. -/
theorem c6_event_modifier_witness :
    fallbackError.type = EventType.REVERSE_CONTROLS
    ∧ tickDisplacement (some fallbackError) 1 0
        = (-(((1 : ℤ) : ℚ) * MOVEMENT_SPEED), -(((0 : ℤ) : ℚ) * MOVEMENT_SPEED)) :=
  ⟨rfl, (c6_event_modifier_composition fallbackError 1 0).1 rfl⟩

/-- An item hit by some player never survives collision resolution. -/
theorem not_mem_resolve_of_hit (ev : Option ChaosEvent) (players : List Player)
    (presents : List Present) (q : Present)
    (hq : ∃ o ∈ players, hits o q = true) :
    q ∉ (resolveCollisions ev players presents).2 := by
  rw [resolveCollisions_presents]
  intro hmem
  rcases hq with ⟨o, ho, hhit⟩
  have hall := (List.mem_filter.1 hmem).2
  rw [List.all_eq_true] at hall
  have hfo := hall o ho
  rw [hhit] at hfo
  cases hfo

/-- C7: a present overlapped by some player is removed by the
collision step of the tick that detects it (so it is absent from the
collection every later tick sees), the total score the step awards is
the sum of each removed present's value counted exactly once, the
resolution decomposes around the first player in iteration order
hitting the present, that player receives the present's points while
the remaining presents passed to every later player no longer contain
it, and (after a non-final tick, its spawn draw aside) the present is
gone from the tick's resulting state. -/
theorem c7_item_collected_once (ev : Option ChaosEvent) (presents : List Present)
    (l₁ : List Player) (p : Player) (l₂ : List Player) (q : Present)
    (hmiss : ∀ o ∈ l₁, hits o q = false) (hhit : hits p q = true)
    (hq : q ∈ presents) :
    q ∉ (resolveCollisions ev (l₁ ++ p :: l₂) presents).2
    ∧ sumScores (resolveCollisions ev (l₁ ++ p :: l₂) presents).1
        = sumScores (l₁ ++ p :: l₂)
          + ((presents.filter (fun t => (l₁ ++ p :: l₂).any (fun o => hits o t))).map
              (presentPoints ev)).sum
    ∧ (resolveCollisions ev (l₁ ++ p :: l₂) presents).1
        = (resolveCollisions ev l₁ presents).1
          ++ (collectOne ev p (resolveCollisions ev l₁ presents).2).1
            :: (resolveCollisions ev l₂
                (collectOne ev p (resolveCollisions ev l₁ presents).2).2).1
    ∧ p.score + presentPoints ev q
        ≤ (collectOne ev p (resolveCollisions ev l₁ presents).2).1.score
    ∧ q ∉ (collectOne ev p (resolveCollisions ev l₁ presents).2).2
    ∧ (∀ (s : GameState) (pid : String) (ln le : ℚ) (inp : TickInput),
        (integrateInput s pid inp.dx0 inp.dy0).players = l₁ ++ p :: l₂ →
        s.presents = presents →
        ¬ s.timeLeft - inp.dt ≤ 0 →
        q ≠ spawnedPresent inp.spawnId inp.spawnRx inp.spawnRy inp.spawnHigh →
        q ∉ (hostTick s pid ln le inp).state.presents) := by
  have hpmem : p ∈ l₁ ++ p :: l₂ := List.mem_append_right l₁ (List.mem_cons_self ..)
  have hqin1 : q ∈ (resolveCollisions ev l₁ presents).2 := by
    rw [resolveCollisions_presents]
    refine List.mem_filter.2 ⟨hq, ?_⟩
    rw [List.all_eq_true]
    intro o ho
    rw [hmiss o ho]
    rfl
  refine ⟨not_mem_resolve_of_hit ev _ presents q ⟨p, hpmem, hhit⟩,
    resolveCollisions_sumScores ev _ presents, ?_, ?_, ?_, ?_⟩
  · rw [resolveCollisions_append]
    rfl
  · show p.score + presentPoints ev q
      ≤ p.score + (((resolveCollisions ev l₁ presents).2.filter
          (fun t => hits p t)).map (presentPoints ev)).sum
    refine Nat.add_le_add_left ?_ p.score
    exact List.le_sum_of_mem
      (List.mem_map_of_mem _ (List.mem_filter.2 ⟨hqin1, hhit⟩))
  · intro hmem
    have := (List.mem_filter.1 hmem).2
    rw [hhit] at this
    cases this
  · intro s pid ln le inp hpl hpr hlive hnsp
    rw [(hostTick_of_live s pid ln le inp hlive).1]
    have hpl3 : (stepEventTimer (tickTimer (integrateInput s pid inp.dx0 inp.dy0) inp.dt) inp.dt).players
        = l₁ ++ p :: l₂ := by
      rw [stepEventTimer_players]
      exact hpl
    have hpr3 : (stepEventTimer (tickTimer (integrateInput s pid inp.dx0 inp.dy0) inp.dt) inp.dt).presents
        = presents := by
      rw [stepEventTimer_presents]
      show (integrateInput s pid inp.dx0 inp.dy0).presents = presents
      rw [integrateInput_presents]
      exact hpr
    have hnotin : q ∉ (stepCollisions (stepEventTimer (tickTimer (integrateInput s pid inp.dx0 inp.dy0) inp.dt) inp.dt)).presents := by
      show q ∉ (resolveCollisions _ _ _).2
      rw [hpl3, hpr3]
      exact not_mem_resolve_of_hit _ _ presents q ⟨p, hpmem, hhit⟩
    unfold stepSpawn
    split
    · intro hmem
      rcases List.mem_append.1 hmem with hmem | hmem
      · exact hnotin hmem
      · exact hnsp (by simpa using hmem)
    · exact hnotin

/-- Witness for C7: both demo players overlap the demo present; the
first in iteration order collects its 5 points and the present does
not survive the resolution. -/
theorem c7_item_collected_witness :
    hits overlapA demoPresent = true
    ∧ demoPresent ∉ (resolveCollisions none ([] ++ overlapA :: [overlapB]) [demoPresent]).2
    ∧ overlapA.score + presentPoints none demoPresent
        ≤ (collectOne none overlapA (resolveCollisions none [] [demoPresent]).2).1.score := by
  have hhit : hits overlapA demoPresent = true := by
    simp [hits, overlapA, demoPresent, PRESENT_SIZE, PLAYER_SIZE]
    norm_num
  have h := c7_item_collected_once none [demoPresent] [] overlapA [overlapB] demoPresent
    (by intro o ho; cases ho) hhit (List.mem_cons_self ..)
  exact ⟨hhit, h.1, h.2.2.2.1⟩

/-- C8: `generateChaosEvent` converts every provider failure (missing
credential, service error, empty response) into a fallback ChaosEvent
whose name is non-empty, whose type is in the allowed enum, and whose
`active` flag is true — it never throws past its boundary. -/
theorem c8_provider_failure_yields_fallback (o : ProviderOutcome)
    (h : o.isFailure = true) :
    (generateChaosEvent o).name ≠ ""
    ∧ (generateChaosEvent o).type ∈ allowedEventTypes
    ∧ (generateChaosEvent o).active = true := by
  cases o with
  | noApiKey => exact ⟨by decide, by decide, rfl⟩
  | serviceError => exact ⟨by decide, by decide, rfl⟩
  | emptyResponse => exact ⟨by decide, by decide, rfl⟩
  | ok n d t dur => cases h

/-- Witness for C8 at the service-error outcome. -/
theorem c8_provider_failure_witness :
    ProviderOutcome.serviceError.isFailure = true
    ∧ ((generateChaosEvent ProviderOutcome.serviceError).name ≠ ""
      ∧ (generateChaosEvent ProviderOutcome.serviceError).type ∈ allowedEventTypes
      ∧ (generateChaosEvent ProviderOutcome.serviceError).active = true) :=
  ⟨rfl, c8_provider_failure_yields_fallback ProviderOutcome.serviceError rfl⟩

/-- C9: snapshot broadcasts are throttled.  A tick broadcasts only when
more than 40 ms of wall-clock time passed since the recorded last
broadcast, and then records its own time; consequently, over any run of
the host loop the emission times are spaced at least 40 ms apart
(`emissionTimes` lists exactly the frames of `hostRun` whose broadcast
list is non-empty). -/
theorem c9_broadcast_cadence (pid : String) (frames : List TickInput)
    (s : GameState) (ln le : ℚ) :
    List.Chain' (fun a b => a + 40 ≤ b) (emissionTimes pid s ln le frames)
    ∧ emissionTimes pid s ln le frames
        = (hostRun pid s ln le frames).filterMap
            (fun tb => if tb.2.isEmpty then none else some tb.1) :=
  ⟨(emissionTimes_chain pid frames s ln le).1,
    emissionTimes_eq_filterMap pid frames s ln le⟩

/-- C10: no operation ever sets a player's `frozen` (or `inverted`)
flag — in every reachable state both flags are false for every player —
and an active FREEZE event leaves the tick's player list (positions and
scores) exactly as it would be with no active event. -/
theorem c10_freeze_is_inert (s : GameState) (hs : Reachable s) (p : Player)
    (hp : p ∈ s.players) :
    (p.frozen = false ∧ p.inverted = false)
    ∧ (∀ (s2 : GameState) (pid : String) (ln le : ℚ) (inp : TickInput)
        (ev : ChaosEvent), ev.type = EventType.FREEZE →
        (hostTick { s2 with activeEvent := some ev } pid ln le inp).state.players
          = (hostTick { s2 with activeEvent := none } pid ln le inp).state.players) :=
  ⟨frozen_inverted_invariant s hs p hp,
    fun s2 pid ln le inp ev hty => hostTick_freeze_players s2 pid ln le inp ev hty⟩

/-- Witness for C10 at the freshly initialised host state. -/
theorem c10_freeze_is_inert_witness :
    (initialPlayer "h" "Hosta" PlayerSkin.SANTA).frozen = false
    ∧ (initialPlayer "h" "Hosta" PlayerSkin.SANTA).inverted = false :=
  (c10_freeze_is_inert (initialGameState "h" "Hosta" PlayerSkin.SANTA)
    (Reachable.init "h" "Hosta" PlayerSkin.SANTA)
    (initialPlayer "h" "Hosta" PlayerSkin.SANTA) (List.mem_cons_self ..)).1

end Chirma
